import Mathlib

/-!
# Verification of the SeletorBombasapp pump-selection engine

Shallow embedding of the core selection logic of the repository's two
source files, `src/app2.py` and `src/appll.py`:

* `carregar_e_processar_dados` (catalog enrichment, minus the Excel I/O),
* `filtrar_e_classificar` (candidate filter + ranking),
* `selecionar_bombas` (single / parallel / series fallback strategy),
* the module constant `MOTORES_PADRAO` and `encontrar_motor_final`.

Modelling conventions:

* Catalog numbers are rationals (`ℚ`).  Values that can be the float `NaN`
  in the source (unparsable rotor labels, power beyond the motor ladder,
  zero-width flow bands, missing consecutive-efficiency differences) are
  `Option ℚ` with `none` playing the role of `NaN`.
* A pandas dataframe is a `List` of per-row records; `groupby(...).transform`
  aggregations become per-row folds over the rows sharing the group key.
* `DataFrame.sort_values` on several columns is pandas' stable lexicographic
  sort (`lexsort`), with `na_position='last'` placing `NaN` after every
  number in each key column.  It is embedded as the stable insertion sort
  `isortK` by a key into a lexicographic linear order, where `WithTop ℚ`
  models a `NaN`-able ascending column (`⊤` = `NaN`, sorted last),
  `ℚᵒᵈ` models a descending column, and `EV = WithTop (WithTop ℚ)` models
  the tie-break column of `app2.py` whose values are numbers, `np.inf`
  (sorted after all numbers) or `NaN` (sorted last).
* `np.select([c1, c2], [v1, v2], default=d)` is the nested conditional
  `if c1 then v1 else if c2 then v2 else d`; pandas `==` on a `NaN` value
  is `False`, so `Option`-valued equality tests only succeed on `some`s.
* `np.clip(x, lo, hi)` is `min hi (max lo x)`.
-/

namespace SeletorBombas

/-! ## Stable sorting by a key (pandas multi-column `sort_values`) -/

/-- Insert `a` into `l` before the first element `b` with `le a b`.
With a reflexive `le` this places `a` in front of elements equal to it,
which is what stability of the enclosing sort requires, since `isort`
inserts elements taken from the front of the original list last. -/
def insertS (le : α → α → Bool) (a : α) : List α → List α
  | [] => [a]
  | b :: l => if le a b then a :: b :: l else b :: insertS le a l

/-- Stable insertion sort with a boolean `le`. -/
def isort (le : α → α → Bool) : List α → List α
  | [] => []
  | x :: xs => insertS le x (isort le xs)

/-- Stable sort of a list by a key into a linear order: the embedding of
pandas' stable multi-column `sort_values`. -/
def isortK {κ : Type} [LinearOrder κ] (K : α → κ) (l : List α) : List α :=
  isort (fun a b => decide (K a ≤ K b)) l

theorem insertS_perm (le : α → α → Bool) (a : α) (l : List α) :
    List.Perm (insertS le a l) (a :: l) := by
  induction l with
  | nil => exact List.Perm.refl _
  | cons b t ih =>
    by_cases h : le a b = true
    · have he : insertS le a (b :: t) = a :: b :: t := by simp [insertS, h]
      rw [he]
    · have he : insertS le a (b :: t) = b :: insertS le a t := by simp [insertS, h]
      rw [he]
      exact (ih.cons b).trans (List.Perm.swap a b t)

theorem isort_perm (le : α → α → Bool) (l : List α) :
    List.Perm (isort le l) l := by
  induction l with
  | nil => exact List.Perm.refl _
  | cons x xs ih =>
    exact List.Perm.trans (insertS_perm le x (isort le xs)) (List.Perm.cons x ih)

theorem mem_insertS {le : α → α → Bool} {a x : α} {l : List α} :
    x ∈ insertS le a l ↔ x = a ∨ x ∈ l := by
  have h := (insertS_perm le a l).mem_iff (a := x)
  simpa using h

theorem mem_isort {le : α → α → Bool} {x : α} {l : List α} :
    x ∈ isort le l ↔ x ∈ l :=
  (isort_perm le l).mem_iff

theorem length_isort (le : α → α → Bool) (l : List α) :
    (isort le l).length = l.length :=
  (isort_perm le l).length_eq

theorem isortK_perm {κ : Type} [LinearOrder κ] (K : α → κ) (l : List α) :
    List.Perm (isortK K l) l :=
  isort_perm _ l

theorem mem_isortK {κ : Type} [LinearOrder κ] {K : α → κ} {x : α} {l : List α} :
    x ∈ isortK K l ↔ x ∈ l :=
  mem_isort

theorem length_isortK {κ : Type} [LinearOrder κ] (K : α → κ) (l : List α) :
    (isortK K l).length = l.length :=
  length_isort _ l

theorem pairwise_insertS {κ : Type} [LinearOrder κ] (K : α → κ) (a : α) (l : List α)
    (h : l.Pairwise (fun x y => K x ≤ K y)) :
    (insertS (fun x y => decide (K x ≤ K y)) a l).Pairwise (fun x y => K x ≤ K y) := by
  induction l with
  | nil => simp [insertS]
  | cons b t ih =>
    rcases List.pairwise_cons.mp h with ⟨hb, ht⟩
    by_cases hab : K a ≤ K b
    · have he : insertS (fun x y => decide (K x ≤ K y)) a (b :: t) = a :: b :: t := by
        simp [insertS, hab]
      rw [he]
      refine List.pairwise_cons.mpr ⟨?_, h⟩
      intro y hy
      rcases List.mem_cons.mp hy with hy | hy
      · subst hy; exact hab
      · exact le_trans hab (hb y hy)
    · have he : insertS (fun x y => decide (K x ≤ K y)) a (b :: t)
          = b :: insertS (fun x y => decide (K x ≤ K y)) a t := by
        simp [insertS, hab]
      rw [he]
      refine List.pairwise_cons.mpr ⟨?_, ih ht⟩
      intro y hy
      rcases mem_insertS.mp hy with hy | hy
      · subst hy; exact le_of_not_le hab
      · exact hb y hy

theorem isortK_pairwise {κ : Type} [LinearOrder κ] (K : α → κ) (l : List α) :
    (isortK K l).Pairwise (fun x y => K x ≤ K y) := by
  induction l with
  | nil => simp [isortK, isort]
  | cons x xs ih => exact pairwise_insertS K x _ ih

/-! ## Minima / maxima of lists of rationals (numpy `.min()` / `.max()`,
pandas `groupby(...).transform("min"/"max")` seeds) -/

/-- Minimum of a list of rationals; `none` on the empty list
(numpy `.min()` of an empty selection / all-`NaN` pandas aggregation). -/
def qmin? : List ℚ → Option ℚ
  | [] => none
  | x :: xs => some (xs.foldl min x)

/-- Maximum of a list of rationals; `none` on the empty list. -/
def qmax? : List ℚ → Option ℚ
  | [] => none
  | x :: xs => some (xs.foldl max x)

theorem foldl_min_le_init : ∀ (l : List ℚ) (s : ℚ), l.foldl min s ≤ s := by
  intro l
  induction l with
  | nil => intro s; simp
  | cons x xs ih =>
    intro s
    calc (x :: xs).foldl min s = xs.foldl min (min s x) := rfl
    _ ≤ min s x := ih (min s x)
    _ ≤ s := min_le_left _ _

theorem foldl_min_le_mem : ∀ (l : List ℚ) (s x : ℚ), x ∈ l → l.foldl min s ≤ x := by
  intro l
  induction l with
  | nil => intro s x hx; cases hx
  | cons y ys ih =>
    intro s x hx
    rcases List.mem_cons.mp hx with hx | hx
    · subst hx
      calc (x :: ys).foldl min s = ys.foldl min (min s x) := rfl
      _ ≤ min s x := foldl_min_le_init ys _
      _ ≤ x := min_le_right _ _
    · exact ih (min s y) x hx

theorem foldl_min_mem : ∀ (l : List ℚ) (s : ℚ), l.foldl min s = s ∨ l.foldl min s ∈ l := by
  intro l
  induction l with
  | nil => intro s; left; rfl
  | cons x xs ih =>
    intro s
    rcases ih (min s x) with h | h
    · rcases min_choice s x with hc | hc
      · left
        show List.foldl min (min s x) xs = s
        rw [h, hc]
      · right
        show List.foldl min (min s x) xs ∈ x :: xs
        rw [h, hc]
        exact List.mem_cons_self x xs
    · right
      exact List.mem_cons_of_mem x h

theorem init_le_foldl_max : ∀ (l : List ℚ) (s : ℚ), s ≤ l.foldl max s := by
  intro l
  induction l with
  | nil => intro s; simp
  | cons x xs ih =>
    intro s
    calc s ≤ max s x := le_max_left _ _
    _ ≤ xs.foldl max (max s x) := ih (max s x)
    _ = (x :: xs).foldl max s := rfl

theorem qmin?_eq_none {l : List ℚ} : qmin? l = none ↔ l = [] := by
  cases l <;> simp [qmin?]

theorem qmin?_mem {l : List ℚ} {m : ℚ} (h : qmin? l = some m) : m ∈ l := by
  cases l with
  | nil => cases h
  | cons x xs =>
    simp only [qmin?, Option.some.injEq] at h
    rcases foldl_min_mem xs x with h' | h'
    · rw [← h, h']; exact List.mem_cons_self x xs
    · rw [← h]; exact List.mem_cons_of_mem x h'

theorem qmin?_le {l : List ℚ} {m : ℚ} (h : qmin? l = some m) :
    ∀ x ∈ l, m ≤ x := by
  cases l with
  | nil => cases h
  | cons y ys =>
    simp only [qmin?, Option.some.injEq] at h
    intro x hx
    rcases List.mem_cons.mp hx with hx | hx
    · subst hx; rw [← h]; exact foldl_min_le_init ys x
    · rw [← h]; exact foldl_min_le_mem ys y x hx

/-! ## `NaN`-able / `inf`-able sort key values -/

/-- A `NaN`-able ascending sort column: `⊤` is `NaN`, sorted last. -/
def ot (x : Option ℚ) : WithTop ℚ :=
  match x with
  | none => ⊤
  | some q => (q : WithTop ℚ)

/-- Sort values of `app2.py`'s `CHAVE_DESEMPATE` column: a number,
`np.inf` (after every number) or `NaN` (last). -/
abbrev EV := WithTop (WithTop ℚ)

/-- A numeric tie-break key value. -/
def evNum (q : ℚ) : EV := ((q : WithTop ℚ) : EV)

/-- The `np.inf` tie-break key value: after every number, before `NaN`. -/
def evInf : EV := ((⊤ : WithTop ℚ) : EV)

/-- The `NaN` tie-break key value: sorted last (`na_position='last'`). -/
def evNan : EV := (⊤ : EV)

/-- A `NaN`-able value as a tie-break key entry. -/
def evOf : Option ℚ → EV
  | some q => evNum q
  | none => evNan

/-! ## Raw catalog rows and shared constants -/

/-- One raw catalog row, as read from the spreadsheet after column
normalization: MODELO, ROTOR, VAZÃO (M³/H), PRESSÃO (MCA),
RENDIMENTO (%), POTÊNCIA (HP). -/
structure Record where
  modelo : String
  rotor : String
  vazao : ℚ
  pressao : ℚ
  rendimento : ℚ
  potencia : ℚ
deriving DecidableEq

/-- The fixed ascending motor-size ladder `MOTORES_PADRAO` of `app2.py`
(also the local `motores_padrao` of `appll.py`). -/
def MOTORES_PADRAO : List ℚ :=
  [15, 20, 25, 30, 40, 50, 60, 75, 100, 125, 150, 175, 200, 250, 300,
   350, 400, 450, 500, 550, 600]

/-- Embedding of `encontrar_motor_final`: the candidates are the ladder entries `≥ p`;
their `.min()` is returned, `np.nan` (here `none`) when there is none.
(`app2.py` additionally returns `NaN` on a `NaN` input, which a `ℚ` input
cannot be; `appll.py` has the identical arithmetic without that guard.) -/
def encontrar_motor_final (p : ℚ) : Option ℚ :=
  qmin? (MOTORES_PADRAO.filter (fun m => decide (p ≤ m)))

/-- The value of a leading run of decimal digits. -/
def digitsVal (ds : List Char) : ℕ :=
  ds.foldl (fun n c => 10 * n + (c.toNat - 48)) 0

/-- Embedding of `extrair_rotor_num`:
`re.match(r"(\d+)(?:\s*\((\d+)°\))?", s)` followed by
`base + grau / 100`.  The regex anchors at the start of the string,
takes a maximal run of digits as the base, then optionally (after
whitespace) `(`, digits, `°`, `)` as the trim degree; when the optional
part does not match, the match succeeds with degree 0.  No leading digit
means no match: `np.nan`, here `none`. -/
def extrair_rotor_num (s : String) : Option ℚ :=
  let cs := s.toList
  let ds := cs.takeWhile Char.isDigit
  let rest := cs.dropWhile Char.isDigit
  if ds.isEmpty then none
  else
    let base : ℚ := (digitsVal ds : ℕ)
    let rest2 := rest.dropWhile Char.isWhitespace
    match rest2 with
    | '(' :: r2 =>
      let ds2 := r2.takeWhile Char.isDigit
      let r3 := r2.dropWhile Char.isDigit
      match ds2, r3 with
      | [], _ => some base
      | _ :: _, '°' :: ')' :: _ => some (base + (digitsVal ds2 : ℕ) / 100)
      | _ :: _, _ => some base
    | _ => some base

/-! ## `app2.py` -/

namespace App2

/-- A catalog row of `app2.py` after `carregar_e_processar_dados`:
the raw columns plus the derived columns MOTOR PADRÃO (CV), ROTORNUM,
ROTOR_MIN_MODELO, ROTOR_MAX_MODELO, PRESSAO_MAX_MODELO,
POTENCIA_MAX_FAMILIA, min/max (the (MODELO, ROTOR) flow band),
VAZAO_CENTRO, ERRO_RELATIVO and ABS_ERRO_RELATIVO. -/
structure ERec where
  modelo : String
  rotor : String
  vazao : ℚ
  pressao : ℚ
  rendimento : ℚ
  potencia : ℚ
  motorPadrao : Option ℚ
  rotorNum : Option ℚ
  rotorMinModelo : Option ℚ
  rotorMaxModelo : Option ℚ
  pressaoMaxModelo : ℚ
  potenciaMaxFamilia : ℚ
  flowMin : ℚ
  flowMax : ℚ
  vazaoCentro : ℚ
  erroRelativo : Option ℚ
  absErroRelativo : Option ℚ
deriving DecidableEq

/-- The enrichment of one row by `carregar_e_processar_dados` (`app2.py`
lines 32-52).  Group aggregations (`groupby(...).transform`, and the
(MODELO, ROTOR) flow-band merge) are folds over the rows sharing the key;
the row itself belongs to its own group, so seeding each fold with the
row's own value computes the group aggregate.  `ROTORNUM` aggregation
skips `NaN`s (pandas `min`/`max` skipna), giving `none` only when no row
of the model parses.  `ERRO_RELATIVO` is `NaN` (`none`) exactly when the
flow band has zero width: then the numerator `vazao - centro` is `0` as
well and the float value is `0/0 = NaN`. -/
def enrichRow (rows : List Record) (r : Record) : ERec :=
  let fam := rows.filter (fun s => decide (s.modelo = r.modelo))
  let rnums := fam.filterMap (fun s => extrair_rotor_num s.rotor)
  let band := (rows.filter
      (fun s => decide (s.modelo = r.modelo) && decide (s.rotor = r.rotor))).map (·.vazao)
  let fmin := band.foldl min r.vazao
  let fmax := band.foldl max r.vazao
  let centro := (fmin + fmax) / 2
  let er : Option ℚ :=
    if fmax = fmin then none else some ((r.vazao - centro) / (fmax - fmin) * 100)
  { modelo := r.modelo
    rotor := r.rotor
    vazao := r.vazao
    pressao := r.pressao
    rendimento := r.rendimento
    potencia := r.potencia
    motorPadrao := encontrar_motor_final r.potencia
    rotorNum := extrair_rotor_num r.rotor
    rotorMinModelo := qmin? rnums
    rotorMaxModelo := qmax? rnums
    pressaoMaxModelo := (fam.map (·.pressao)).foldl max r.pressao
    potenciaMaxFamilia := (fam.map (·.potencia)).foldl max r.potencia
    flowMin := fmin
    flowMax := fmax
    vazaoCentro := centro
    erroRelativo := er
    absErroRelativo := er.map (fun x => |x|) }

/-- Embedding of `carregar_e_processar_dados` minus the Excel I/O: every row enriched. -/
def enrich (rows : List Record) : List ERec := rows.map (enrichRow rows)

/-- Embedding of `df['ROTORNUM'] == df['ROTOR_MAX_MODELO']`: pandas `==` on a `NaN`
is `False`, so the test only succeeds when both sides are numbers. -/
def condMax (e : ERec) : Bool :=
  match e.rotorNum, e.rotorMaxModelo with
  | some a, some b => decide (a = b)
  | _, _ => false

/-- Embedding of `df['ROTORNUM'] == df['ROTOR_MIN_MODELO']`. -/
def condMin (e : ERec) : Bool :=
  match e.rotorNum, e.rotorMinModelo with
  | some a, some b => decide (a = b)
  | _, _ => false

/-- Embedding of `margem_cima` (`app2.py` line 62): `np.select([cond_max, cond_min],
[0.03 P, 0.1 P], default 0.1 P)` — the min-rotor branch and the default
coincide. -/
def margemCima (e : ERec) : ℚ :=
  if condMax e then e.pressaoMaxModelo * (3 / 100)
  else e.pressaoMaxModelo * (1 / 10)

/-- Embedding of `margem_baixo` (`app2.py` line 63): `np.select([cond_max, cond_min],
[0.1 P, 0.03 P], default 0.1 P)`. -/
def margemBaixo (e : ERec) : ℚ :=
  if condMax e then e.pressaoMaxModelo * (1 / 10)
  else if condMin e then e.pressaoMaxModelo * (3 / 100)
  else e.pressaoMaxModelo * (1 / 10)

/-- The admission test of `app2.py` line 66: exact flow equality and the
pressure window `[pressao - margem_baixo, pressao + margem_cima]`. -/
def admissivel (vazao pressao : ℚ) (e : ERec) : Bool :=
  decide (e.vazao = vazao) &&
  decide (pressao - margemBaixo e ≤ e.pressao) &&
  decide (e.pressao ≤ pressao + margemCima e)

/-- The boundary-exclusion refinement of `app2.py` line 68 (kept rows). -/
def keepRefined (pressao : ℚ) (e : ERec) : Bool :=
  !(condMin e && decide (pressao < e.pressao - e.pressaoMaxModelo * (3 / 100))) &&
  !(condMax e && decide (pressao > e.pressao + e.pressaoMaxModelo * (3 / 100)))

/-- Embedding of `df_filtrado` after lines 66-68 of `app2.py` (running the refinement
on an empty frame is the identity, so the `if not df_filtrado.empty`
guard needs no separate case). -/
def candidatos (df : List ERec) (vazao pressao : ℚ) : List ERec :=
  (df.filter (admissivel vazao pressao)).filter (keepRefined pressao)

/-- A filtered row with the ETAPA 2 columns of `app2.py` (lines 71-81):
ERRO_PRESSAO, PERC_ERRO_PRESSAO, the clipped adjustment, POTÊNCIA
CORRIGIDA (HP) and MOTOR FINAL (CV). -/
structure Cand where
  e : ERec
  erroPressao : ℚ
  percErroPressao : ℚ
  ajusteFinal : ℚ
  potenciaCorrigida : ℚ
  motorFinal : Option ℚ
deriving DecidableEq

/-- ETAPA 2 of `app2.py`: signed pressure error, its fraction of the
target (0 when the target pressure is not positive), the raw power
adjustment clipped to ± POTENCIA_MAX_FAMILIA · fator_limitador
(`np.clip(x, -lim, lim) = min lim (max (-lim) x)`), and the standard
motor of the corrected power. -/
def mkCand (pressao fator : ℚ) (e : ERec) : Cand :=
  let erro := e.pressao - pressao
  let perc := if 0 < pressao then erro / pressao else 0
  let bruto := e.potencia * perc
  let lim := e.potenciaMaxFamilia * fator
  let aj := min lim (max (-lim) bruto)
  let pc := e.potencia - aj
  ⟨e, erro, perc, aj, pc, encontrar_motor_final pc⟩

/-- Sort key of the preparatory sort (`app2.py` lines 89-92):
MOTOR FINAL (CV) ascending with `NaN` last, RENDIMENTO (%) descending. -/
def K1 (c : Cand) : (WithTop ℚ) ×ₗ ℚᵒᵈ :=
  toLex (ot c.motorFinal, OrderDual.toDual c.e.rendimento)

/-- A row annotated with DIFF_CONSECUTIVO and CHAVE_DESEMPATE. -/
structure RankedRow where
  c : Cand
  diffConsecutivo : Option ℚ
  chave : EV
deriving DecidableEq

/-- The next row of the same MOTOR FINAL (CV) group further down the
frame.  `groupby` drops `NaN` keys, so a row with undefined motor has no
group and no successor. -/
def nextInGroup (m : Option ℚ) : List Cand → Option Cand
  | [] => none
  | b :: t =>
    match m with
    | none => none
    | some x =>
      match b.motorFinal with
      | some y => if x = y then some b else nextInGroup (some x) t
      | none => nextInGroup (some x) t

/-- CHAVE_DESEMPATE (`app2.py` lines 98-102):
`np.where(DIFF_CONSECUTIVO.fillna(inf) <= limite, ABS_ERRO_RELATIVO, inf)`.
A missing DIFF (`NaN`, filled with `inf`) fails the test, giving `inf`;
otherwise the key is ABS_ERRO_RELATIVO, which is itself `NaN` for a
zero-width flow band. -/
def chaveOf (limite : ℚ) (diff : Option ℚ) (absErr : Option ℚ) : EV :=
  match diff with
  | some d => if d ≤ limite then evOf absErr else evInf
  | none => evInf

/-- DIFF_CONSECUTIVO and CHAVE_DESEMPATE for every row (`app2.py`
lines 95-102): `groupby('MOTOR FINAL (CV)')['RENDIMENTO (%)'].diff(-1).abs()`
is the absolute difference to the next row of the same motor group in the
current (sorted) row order, `NaN` for the last row of each group and for
rows with `NaN` motor. -/
def annotate (limite : ℚ) : List Cand → List RankedRow
  | [] => []
  | a :: rest =>
    let diff := (nextInGroup a.motorFinal rest).map
      (fun b => |a.e.rendimento - b.e.rendimento|)
    ⟨a, diff, chaveOf limite diff a.e.absErroRelativo⟩ :: annotate limite rest

/-- Sort key of the final sort (`app2.py` lines 105-118):
MOTOR FINAL (CV) ascending (`NaN` last), CHAVE_DESEMPATE ascending
(`inf` after numbers, `NaN` last), RENDIMENTO (%) descending,
POTÊNCIA CORRIGIDA (HP) ascending. -/
def K2 (r : RankedRow) : (WithTop ℚ) ×ₗ (EV ×ₗ (ℚᵒᵈ ×ₗ ℚ)) :=
  toLex (ot r.c.motorFinal,
    toLex (r.chave,
      toLex (OrderDual.toDual r.c.e.rendimento, r.c.potenciaCorrigida)))

/-- The fully ordered candidate list of `filtrar_e_classificar`
(before truncation), with all intermediate columns. -/
def rankAllFull (df : List ERec) (vazao pressao fator limite : ℚ) : List RankedRow :=
  isortK K2 (annotate limite (isortK K1 ((candidatos df vazao pressao).map (mkCand pressao fator))))

/-- The list `rankAllFull` truncated to `top_n` (`.head(top_n)`). -/
def filtrarFull (df : List ERec) (vazao pressao : ℚ) (top_n : ℕ) (fator limite : ℚ) :
    List RankedRow :=
  (rankAllFull df vazao pressao fator limite).take top_n

/-- The `colunas_finais` output schema of `app2.py` lines 120-123. -/
structure ResultRow where
  modelo : String
  rotor : String
  vazao : ℚ
  pressao : ℚ
  erroPressao : ℚ
  erroRelativo : Option ℚ
  rendimento : ℚ
  potencia : ℚ
  potenciaCorrigida : ℚ
  motorFinal : Option ℚ
deriving DecidableEq

/-- The column selection `df_resultado[colunas_finais]`. -/
def proj (r : RankedRow) : ResultRow :=
  ⟨r.c.e.modelo, r.c.e.rotor, r.c.e.vazao, r.c.e.pressao, r.c.erroPressao,
   r.c.e.erroRelativo, r.c.e.rendimento, r.c.e.potencia, r.c.potenciaCorrigida,
   r.c.motorFinal⟩

/-- The fully ordered output rows, before truncation. -/
def rankAll (df : List ERec) (vazao pressao fator limite : ℚ) : List ResultRow :=
  (rankAllFull df vazao pressao fator limite).map proj

/-- Embedding of `filtrar_e_classificar` of `app2.py`: filter, correct, order, select
the output columns and truncate to `top_n`. -/
def filtrar_e_classificar (df : List ERec) (vazao pressao : ℚ) (top_n : ℕ)
    (fator limite : ℚ) : List ResultRow :=
  (rankAll df vazao pressao fator limite).take top_n

/-- Embedding of `resultado.iloc[0]["RENDIMENTO (%)"]`; the default on an empty frame
is never reached because every use is guarded by non-emptiness. -/
def bestRend : List ResultRow → ℚ
  | [] => 0
  | h :: _ => h.rendimento

/-- Embedding of `selecionar_bombas` of `app2.py` (lines 126-136), with the default
`fator_limitador = 0.025` and `limite_desempate_rendimento = 3` of
`filtrar_e_classificar`. -/
def selecionar_bombas (df : List ERec) (vazao pressao : ℚ) (top_n : ℕ) :
    List ResultRow × String :=
  let ru := filtrar_e_classificar df vazao pressao top_n (1 / 40) 3
  if ru ≠ [] ∧ 50 < bestRend ru then (ru, "unica")
  else
    let rp := filtrar_e_classificar df (vazao / 2) pressao top_n (1 / 40) 3
    if rp ≠ [] then (rp, "paralelo")
    else
      let rs := filtrar_e_classificar df vazao (pressao / 2) top_n (1 / 40) 3
      if rs ≠ [] then (rs, "serie")
      else ([], "nenhuma")

/-- The shared catalog as mutable state: the enriched rows plus the
`margem_cima` / `margem_baixo` columns, which `filtrar_e_classificar`
writes into the SHARED frame (`df['margem_cima'] = ...`, `app2.py`
lines 62-63) before taking the `.copy()` it ranks.  `none` models a
catalog on which no query has run yet (the columns are absent). -/
structure Catalog2 where
  rows : List ERec
  margemCols : Option (List (ℚ × ℚ))
deriving DecidableEq

/-- The margin columns written by a query: one `(margem_cima,
margem_baixo)` pair per row, computed from the enriched columns only —
they do not depend on the query's flow/pressure. -/
def margensOf (rows : List ERec) : List (ℚ × ℚ) :=
  rows.map (fun e => (margemCima e, margemBaixo e))

/-- Embedding of `filtrar_e_classificar` as a state transformer on the shared catalog:
it returns the ranked rows and the catalog as left behind, with the two
margin columns (re)written.  All other mutation in the source happens on
the `.copy()` `df_filtrado` and never reaches the shared frame. -/
def filtrarState (c : Catalog2) (vazao pressao : ℚ) (top_n : ℕ) (fator limite : ℚ) :
    List ResultRow × Catalog2 :=
  (filtrar_e_classificar c.rows vazao pressao top_n fator limite,
   ⟨c.rows, some (margensOf c.rows)⟩)

end App2

/-! ## `appll.py` -/

namespace AppLL

/-- A catalog row of `appll.py` after `carregar_e_processar_dados`:
raw columns plus Motor (HP), RotorNum, rotor_min_modelo,
rotor_max_modelo, pressao_max_modelo, the (Modelo, Rotor) flow band,
vazao_centro and erro_relativo. -/
structure ERec where
  modelo : String
  rotor : String
  vazao : ℚ
  pressao : ℚ
  rendimento : ℚ
  potencia : ℚ
  motor : Option ℚ
  rotorNum : Option ℚ
  rotorMinModelo : Option ℚ
  rotorMaxModelo : Option ℚ
  pressaoMaxModelo : ℚ
  flowMin : ℚ
  flowMax : ℚ
  vazaoCentro : ℚ
  erroRelativo : Option ℚ
deriving DecidableEq

/-- The enrichment of one row by `carregar_e_processar_dados` of
`appll.py` (lines 17-44).  `erro_relativo` (line 44) is
`abs(vazao - centro) / (max - min).replace(0, nan)`: already absolute,
not scaled by 100, and `NaN` (`none`) exactly when the band has zero
width.  Group aggregates as in `App2.enrichRow`. -/
def enrichRow (rows : List Record) (r : Record) : ERec :=
  let fam := rows.filter (fun s => decide (s.modelo = r.modelo))
  let rnums := fam.filterMap (fun s => extrair_rotor_num s.rotor)
  let band := (rows.filter
      (fun s => decide (s.modelo = r.modelo) && decide (s.rotor = r.rotor))).map (·.vazao)
  let fmin := band.foldl min r.vazao
  let fmax := band.foldl max r.vazao
  let centro := (fmin + fmax) / 2
  { modelo := r.modelo
    rotor := r.rotor
    vazao := r.vazao
    pressao := r.pressao
    rendimento := r.rendimento
    potencia := r.potencia
    motor := encontrar_motor_final r.potencia
    rotorNum := extrair_rotor_num r.rotor
    rotorMinModelo := qmin? rnums
    rotorMaxModelo := qmax? rnums
    pressaoMaxModelo := (fam.map (·.pressao)).foldl max r.pressao
    flowMin := fmin
    flowMax := fmax
    vazaoCentro := centro
    erroRelativo := if fmax = fmin then none else some (|r.vazao - centro| / (fmax - fmin)) }

/-- Embedding of `carregar_e_processar_dados` of `appll.py` minus the Excel I/O. -/
def enrich (rows : List Record) : List ERec := rows.map (enrichRow rows)

/-- Embedding of `df['RotorNum'] == df['rotor_max_modelo']`. -/
def condMax (e : ERec) : Bool :=
  match e.rotorNum, e.rotorMaxModelo with
  | some a, some b => decide (a = b)
  | _, _ => false

/-- Embedding of `df['RotorNum'] == df['rotor_min_modelo']`. -/
def condMin (e : ERec) : Bool :=
  match e.rotorNum, e.rotorMinModelo with
  | some a, some b => decide (a = b)
  | _, _ => false

/-- Embedding of `margem_cima` (`appll.py` line 58): `np.select([cond_max, cond_min],
[0.015 P, 0.05 P], default 0.05 P)`. -/
def margemCima (e : ERec) : ℚ :=
  if condMax e then e.pressaoMaxModelo * (15 / 1000)
  else e.pressaoMaxModelo * (5 / 100)

/-- Embedding of `margem_baixo` (`appll.py` line 59): `np.select([cond_max, cond_min],
[0.05 P, 0.015 P], default 0.05 P)`. -/
def margemBaixo (e : ERec) : ℚ :=
  if condMax e then e.pressaoMaxModelo * (5 / 100)
  else if condMin e then e.pressaoMaxModelo * (15 / 1000)
  else e.pressaoMaxModelo * (5 / 100)

/-- The admission test of `appll.py` lines 63-67 (no boundary-exclusion
refinement in this version). -/
def admissivel (vazao pressao : ℚ) (e : ERec) : Bool :=
  decide (e.vazao = vazao) &&
  decide (pressao - margemBaixo e ≤ e.pressao) &&
  decide (e.pressao ≤ pressao + margemCima e)

/-- Embedding of `df_filtrado` of `appll.py`. -/
def candidatos (df : List ERec) (vazao pressao : ℚ) : List ERec :=
  df.filter (admissivel vazao pressao)

/-- A filtered row with the `erro_pressao` column of `appll.py` line 72:
the ABSOLUTE pressure difference. -/
structure LRow where
  e : ERec
  erroPressao : ℚ
deriving DecidableEq

/-- Embedding of `appll.py` line 72: `erro_pressao = abs(pressao_row - pressao)`. -/
def mkLRow (pressao : ℚ) (e : ERec) : LRow :=
  ⟨e, |e.pressao - pressao|⟩

/-- Sort key of `appll.py` lines 74-77: Motor (HP) ascending (`NaN`
last), Rendimento (%) descending, erro_relativo ascending (`NaN` last),
erro_pressao ascending. -/
def KL (r : LRow) : (WithTop ℚ) ×ₗ (ℚᵒᵈ ×ₗ ((WithTop ℚ) ×ₗ ℚ)) :=
  toLex (ot r.e.motor,
    toLex (OrderDual.toDual r.e.rendimento,
      toLex (ot r.e.erroRelativo, r.erroPressao)))

/-- The fully ordered candidate list, before truncation. -/
def rankAllFull (df : List ERec) (vazao pressao : ℚ) : List LRow :=
  isortK KL ((candidatos df vazao pressao).map (mkLRow pressao))

/-- The list `rankAllFull` truncated to `top_n`. -/
def filtrarFull (df : List ERec) (vazao pressao : ℚ) (top_n : ℕ) : List LRow :=
  (rankAllFull df vazao pressao).take top_n

/-- The output schema of `appll.py` lines 79-80. -/
structure LResultRow where
  modelo : String
  rotor : String
  vazao : ℚ
  pressao : ℚ
  rendimento : ℚ
  erroPressao : ℚ
  erroRelativo : Option ℚ
  potencia : ℚ
  motor : Option ℚ
deriving DecidableEq

/-- The output column selection of `appll.py`. -/
def proj (r : LRow) : LResultRow :=
  ⟨r.e.modelo, r.e.rotor, r.e.vazao, r.e.pressao, r.e.rendimento,
   r.erroPressao, r.e.erroRelativo, r.e.potencia, r.e.motor⟩

/-- The fully ordered output rows, before truncation. -/
def rankAll (df : List ERec) (vazao pressao : ℚ) : List LResultRow :=
  (rankAllFull df vazao pressao).map proj

/-- Embedding of `filtrar_e_classificar` of `appll.py`. -/
def filtrar_e_classificar (df : List ERec) (vazao pressao : ℚ) (top_n : ℕ) :
    List LResultRow :=
  (rankAll df vazao pressao).take top_n

/-- Embedding of `resultado.iloc[0]["Rendimento (%)"]`, guarded by non-emptiness. -/
def bestRend : List LResultRow → ℚ
  | [] => 0
  | h :: _ => h.rendimento

/-- Embedding of `selecionar_bombas` of `appll.py` (lines 82-95); the single-pump
quality gate of this version is 60. -/
def selecionar_bombas (df : List ERec) (vazao pressao : ℚ) (top_n : ℕ) :
    List LResultRow × String :=
  let ru := filtrar_e_classificar df vazao pressao top_n
  if ru ≠ [] ∧ 60 < bestRend ru then (ru, "unica")
  else
    let rp := filtrar_e_classificar df (vazao / 2) pressao top_n
    if rp ≠ [] then (rp, "paralelo")
    else
      let rs := filtrar_e_classificar df vazao (pressao / 2) top_n
      if rs ≠ [] then (rs, "serie")
      else ([], "nenhuma")

end AppLL

/-! ## The spec's refined tie-break policy (§4.2), for comparison -/

namespace Spec

/-- Formalisation of the SPEC's words (§4.2 refined policy, step 2), for
comparison with the code: "within each `standard_motor` group, compute
`nearest_efficiency_gap` = the minimum absolute efficiency difference to
any other record in the same motor group (0 if the group has one
member)".  "Other record" is read as any group member distinct from the
record. -/
def nearestEffGap (cands : List App2.ERec) (e : App2.ERec) : ℚ :=
  let peers := (cands.filter (fun s => decide (s.motorPadrao = e.motorPadrao))).filter
    (fun s => !(decide (s = e)))
  match qmin? (peers.map (fun s => |s.rendimento - e.rendimento|)) with
  | some g => g
  | none => 0

/-- The spec's `relative_flow_error` (§3):
`(flow − flow_band_center) / (flow_band_max − flow_band_min)`,
undefined on a zero-width band. -/
def relFlowErr (e : App2.ERec) : Option ℚ :=
  if e.flowMax = e.flowMin then none
  else some ((e.vazao - e.vazaoCentro) / (e.flowMax - e.flowMin))

/-- The spec's tie-break key (§4.2 step 3): `relative_flow_error`
magnitude if `nearest_efficiency_gap ≤ 5`, else +infinity. -/
def tieKey (cands : List App2.ERec) (e : App2.ERec) : EV :=
  if nearestEffGap cands e ≤ 5 then evOf ((relFlowErr e).map (fun x => |x|))
  else evInf

/-- The spec's final ordering key (§4.2 step 4): `standard_motor`
ascending, tie-break key ascending, `pressure_error_abs` ascending. -/
def KSpec (cands : List App2.ERec) (pressao : ℚ) (e : App2.ERec) :
    (WithTop ℚ) ×ₗ (EV ×ₗ ℚ) :=
  toLex (ot e.motorPadrao, toLex (tieKey cands e, |e.pressao - pressao|))

/-- The candidate ordering the spec's §4.2 refined policy prescribes. -/
def refinedRank (cands : List App2.ERec) (pressao : ℚ) : List App2.ERec :=
  isortK (KSpec cands pressao) cands

end Spec

/-! ## Concrete catalogs used by witnesses and counterexamples -/

/-- A six-row catalog: one model "A" with rotors "1" and "2".  The two
flow-100 rows are admitted at target (100, 100); the other rows only
widen the (MODELO, ROTOR) flow bands.  Fields: modelo, rotor, vazão,
pressão, rendimento, potência. -/
def cat6 : List Record :=
  [⟨"A", "1", 100, 100, 80, 45⟩,
   ⟨"A", "1", 101, 100, 80, 45⟩,
   ⟨"A", "1", 120, 100, 80, 45⟩,
   ⟨"A", "2", 100, 100, 76, 48⟩,
   ⟨"A", "2", 90, 100, 76, 48⟩,
   ⟨"A", "2", 110, 100, 76, 48⟩]

/-- The catalog `cat6` enriched for `app2.py`. -/
def cat6df : List App2.ERec := App2.enrich cat6

/-- A two-row catalog: model "B", rotor "1", with one row at flow 100 and
pressure 98 (admitted at target (100, 100) with signed pressure error −2)
and a band-widening row at flow 120. -/
def catB : List Record :=
  [⟨"B", "1", 100, 98, 70, 45⟩,
   ⟨"B", "1", 120, 96, 70, 45⟩]

/-- The catalog `catB` enriched for `appll.py`. -/
def catBdf : List AppLL.ERec := AppLL.enrich catB

/-! ## Helper lemmas about the pipelines -/

namespace App2

theorem mem_annotate {limite : ℚ} {l : List Cand} {r : RankedRow}
    (h : r ∈ annotate limite l) :
    r.c ∈ l ∧ r.chave = chaveOf limite r.diffConsecutivo r.c.e.absErroRelativo := by
  induction l with
  | nil => cases h
  | cons a rest ih =>
    simp only [annotate] at h
    rcases List.mem_cons.mp h with h | h
    · subst h
      exact ⟨List.mem_cons_self _ _, rfl⟩
    · rcases ih h with ⟨h1, h2⟩
      exact ⟨List.mem_cons_of_mem _ h1, h2⟩

theorem length_annotate (limite : ℚ) (l : List Cand) :
    (annotate limite l).length = l.length := by
  induction l with
  | nil => rfl
  | cons a rest ih => simp [annotate, ih]

theorem mem_rankAllFull {df : List ERec} {v p fator limite : ℚ} {r : RankedRow}
    (h : r ∈ rankAllFull df v p fator limite) :
    r.c.e ∈ candidatos df v p ∧ r.c = mkCand p fator r.c.e ∧
      r.chave = chaveOf limite r.diffConsecutivo r.c.e.absErroRelativo := by
  have h1 : r ∈ annotate limite (isortK K1 ((candidatos df v p).map (mkCand p fator))) :=
    mem_isortK.mp h
  rcases mem_annotate h1 with ⟨h2, h3⟩
  have h4 : r.c ∈ (candidatos df v p).map (mkCand p fator) := mem_isortK.mp h2
  rcases List.mem_map.mp h4 with ⟨e, he, hc⟩
  have hce : r.c.e = e := by rw [← hc]; rfl
  refine ⟨by rw [hce]; exact he, by rw [hce]; exact hc.symm, h3⟩

theorem length_rankAllFull (df : List ERec) (v p fator limite : ℚ) :
    (rankAllFull df v p fator limite).length = (candidatos df v p).length := by
  unfold rankAllFull
  rw [length_isortK, length_annotate, length_isortK, List.length_map]

theorem length_filtrar (df : List ERec) (v p : ℚ) (n : ℕ) (fator limite : ℚ) :
    (filtrar_e_classificar df v p n fator limite).length
      = min n ((candidatos df v p).length) := by
  unfold filtrar_e_classificar rankAll
  rw [List.length_take, List.length_map, length_rankAllFull]

theorem mem_filtrar {df : List ERec} {v p : ℚ} {n : ℕ} {fator limite : ℚ}
    {r : ResultRow} (h : r ∈ filtrar_e_classificar df v p n fator limite) :
    ∃ rr, rr ∈ rankAllFull df v p fator limite ∧ r = proj rr := by
  have h1 : r ∈ rankAll df v p fator limite := List.mem_of_mem_take h
  rcases List.mem_map.mp h1 with ⟨rr, hrr, hpr⟩
  exact ⟨rr, hrr, hpr.symm⟩

theorem mem_candidatos {df : List ERec} {v p : ℚ} {e : ERec}
    (h : e ∈ candidatos df v p) :
    e ∈ df ∧ admissivel v p e = true ∧ keepRefined p e = true := by
  rcases List.mem_filter.mp h with ⟨h1, h2⟩
  rcases List.mem_filter.mp h1 with ⟨h3, h4⟩
  exact ⟨h3, h4, h2⟩

theorem admissivel_vazao {v p : ℚ} {e : ERec} (h : admissivel v p e = true) :
    e.vazao = v := by
  unfold admissivel at h
  simp only [Bool.and_eq_true, decide_eq_true_eq] at h
  exact h.1.1

theorem mem_enrich {rows : List Record} {e : ERec} (h : e ∈ enrich rows) :
    ∃ r, r ∈ rows ∧ e = enrichRow rows r := by
  rcases List.mem_map.mp h with ⟨r, hr, he⟩
  exact ⟨r, hr, he.symm⟩

theorem filtrarFull_pairwise (df : List ERec) (v p : ℚ) (n : ℕ) (fator limite : ℚ) :
    (filtrarFull df v p n fator limite).Pairwise (fun a b => K2 a ≤ K2 b) :=
  (isortK_pairwise K2 _).sublist (List.take_sublist _ _)

/-- The strategy `selecionar_bombas` ends in exactly one of its four branches. -/
theorem selecionar_cases (df : List ERec) (v p : ℚ) (n : ℕ) :
    selecionar_bombas df v p n
        = (filtrar_e_classificar df v p n (1 / 40) 3, "unica") ∨
    selecionar_bombas df v p n
        = (filtrar_e_classificar df (v / 2) p n (1 / 40) 3, "paralelo") ∨
    selecionar_bombas df v p n
        = (filtrar_e_classificar df v (p / 2) n (1 / 40) 3, "serie") ∨
    selecionar_bombas df v p n = ([], "nenhuma") := by
  unfold selecionar_bombas
  dsimp only
  split_ifs
  · exact Or.inl rfl
  · exact Or.inr (Or.inl rfl)
  · exact Or.inr (Or.inr (Or.inl rfl))
  · exact Or.inr (Or.inr (Or.inr rfl))

/-- Under the final sort key, a row with the `NaN` tie-break key never
precedes a row of the same motor group with a numeric tie-break key. -/
theorem K2_le_nan_num {a b : RankedRow} (h : K2 a ≤ K2 b)
    (hM : a.c.motorFinal = b.c.motorFinal) (ha : a.chave = evNan) :
    ∀ q : ℚ, b.chave ≠ evNum q := by
  intro q hb
  unfold K2 at h
  rcases (Prod.Lex.le_iff _ _).mp h with h1 | ⟨_, h2⟩
  · simp only [hM] at h1
    exact lt_irrefl _ h1
  · rcases (Prod.Lex.le_iff _ _).mp h2 with h3 | ⟨h4, _⟩
    · rw [ha, hb] at h3
      exact not_top_lt h3
    · rw [ha, hb] at h4
      exact Option.noConfusion h4

end App2

namespace AppLL

theorem length_rankAllFullL (df : List ERec) (v p : ℚ) :
    (rankAllFull df v p).length = (candidatos df v p).length := by
  unfold rankAllFull
  rw [length_isortK, List.length_map]

theorem length_filtrarL (df : List ERec) (v p : ℚ) (n : ℕ) :
    (filtrar_e_classificar df v p n).length = min n ((candidatos df v p).length) := by
  unfold filtrar_e_classificar rankAll
  rw [List.length_take, List.length_map, length_rankAllFullL]

theorem mem_filtrarL {df : List ERec} {v p : ℚ} {n : ℕ} {r : LResultRow}
    (h : r ∈ filtrar_e_classificar df v p n) :
    ∃ rr, rr ∈ rankAllFull df v p ∧ r = proj rr := by
  have h1 : r ∈ rankAll df v p := List.mem_of_mem_take h
  rcases List.mem_map.mp h1 with ⟨rr, hrr, hpr⟩
  exact ⟨rr, hrr, hpr.symm⟩

theorem mem_rankAllFullL {df : List ERec} {v p : ℚ} {r : LRow}
    (h : r ∈ rankAllFull df v p) :
    r.e ∈ candidatos df v p ∧ r = mkLRow p r.e := by
  have h1 : r ∈ (candidatos df v p).map (mkLRow p) := mem_isortK.mp h
  rcases List.mem_map.mp h1 with ⟨e, he, hr⟩
  have hre : r.e = e := by rw [← hr]; rfl
  exact ⟨by rw [hre]; exact he, by rw [hre]; exact hr.symm⟩

theorem mem_candidatosL {df : List ERec} {v p : ℚ} {e : ERec}
    (h : e ∈ candidatos df v p) : e ∈ df ∧ admissivel v p e = true :=
  List.mem_filter.mp h

theorem admissivel_vazaoL {v p : ℚ} {e : ERec} (h : admissivel v p e = true) :
    e.vazao = v := by
  unfold admissivel at h
  simp only [Bool.and_eq_true, decide_eq_true_eq] at h
  exact h.1.1

theorem mem_enrichL {rows : List Record} {e : ERec} (h : e ∈ enrich rows) :
    ∃ r, r ∈ rows ∧ e = enrichRow rows r := by
  rcases List.mem_map.mp h with ⟨r, hr, he⟩
  exact ⟨r, hr, he.symm⟩

theorem filtrarFull_pairwiseL (df : List ERec) (v p : ℚ) (n : ℕ) :
    (filtrarFull df v p n).Pairwise (fun a b => KL a ≤ KL b) :=
  (isortK_pairwise KL _).sublist (List.take_sublist _ _)

/-- The strategy `selecionar_bombas` ends in exactly one of its four branches. -/
theorem selecionar_casesL (df : List ERec) (v p : ℚ) (n : ℕ) :
    selecionar_bombas df v p n = (filtrar_e_classificar df v p n, "unica") ∨
    selecionar_bombas df v p n = (filtrar_e_classificar df (v / 2) p n, "paralelo") ∨
    selecionar_bombas df v p n = (filtrar_e_classificar df v (p / 2) n, "serie") ∨
    selecionar_bombas df v p n = ([], "nenhuma") := by
  unfold selecionar_bombas
  dsimp only
  split_ifs
  · exact Or.inl rfl
  · exact Or.inr (Or.inl rfl)
  · exact Or.inr (Or.inr (Or.inl rfl))
  · exact Or.inr (Or.inr (Or.inr rfl))

/-- Under the `appll.py` sort key, a row with `NaN` `erro_relativo` never
precedes a row with the same motor and efficiency whose `erro_relativo`
is a number. -/
theorem KL_le_nan_num {a b : LRow} (h : KL a ≤ KL b)
    (hM : a.e.motor = b.e.motor) (hR : a.e.rendimento = b.e.rendimento)
    (ha : a.e.erroRelativo = none) :
    ∀ q : ℚ, b.e.erroRelativo ≠ some q := by
  intro q hb
  unfold KL at h
  rcases (Prod.Lex.le_iff _ _).mp h with h1 | ⟨_, h2⟩
  · simp only [hM] at h1
    exact lt_irrefl _ h1
  · rcases (Prod.Lex.le_iff _ _).mp h2 with h3 | ⟨_, h4⟩
    · simp only [hR] at h3
      exact lt_irrefl _ h3
    · rcases (Prod.Lex.le_iff _ _).mp h4 with h5 | ⟨h6, _⟩
      · rw [ha, hb] at h5
        exact not_top_lt h5
      · rw [ha, hb] at h6
        exact Option.noConfusion h6

end AppLL

/-! ## The claims -/

set_option maxRecDepth 8000 in
/-- C6: for every power value, the standard-motor function returns the
smallest element of the fixed ascending ladder that is ≥ the power, and
returns the undefined sentinel (`none`) exactly when the power exceeds
600, the ladder maximum. -/
theorem C6_standard_motor_ladder (p : ℚ) :
    (encontrar_motor_final p = none ↔ 600 < p) ∧
    ∀ m, encontrar_motor_final p = some m →
      m ∈ MOTORES_PADRAO ∧ p ≤ m ∧ ∀ y ∈ MOTORES_PADRAO, p ≤ y → m ≤ y := by
  have hall : ∀ x ∈ MOTORES_PADRAO, x ≤ (600 : ℚ) :=
    of_decide_eq_true (by with_unfolding_all rfl)
  constructor
  · constructor
    · intro h
      by_contra hle
      push_neg at hle
      have h600 : (600 : ℚ) ∈ MOTORES_PADRAO.filter (fun m => decide (p ≤ m)) := by
        refine List.mem_filter.mpr ⟨?_, by simpa using hle⟩
        exact of_decide_eq_true (by with_unfolding_all rfl)
      have hnil : MOTORES_PADRAO.filter (fun m => decide (p ≤ m)) = [] :=
        qmin?_eq_none.mp h
      rw [hnil] at h600
      cases h600
    · intro h
      have hnil : MOTORES_PADRAO.filter (fun m => decide (p ≤ m)) = [] := by
        refine List.filter_eq_nil_iff.mpr ?_
        intro a ha
        simp only [decide_eq_true_eq]
        exact not_le.mpr (lt_of_le_of_lt (hall a ha) h)
      unfold encontrar_motor_final
      rw [hnil]
      rfl
  · intro m hm
    have hmem := qmin?_mem hm
    rcases List.mem_filter.mp hmem with ⟨hm1, hm2⟩
    refine ⟨hm1, by simpa using hm2, ?_⟩
    intro y hy hpy
    exact qmin?_le hm y (List.mem_filter.mpr ⟨hy, by simpa using hpy⟩)

set_option maxRecDepth 8000 in
/-- Witness for C6 at power 47: the returned motor is 50, which is in the
ladder, at least 47, and least among ladder entries ≥ 47. -/
theorem C6_witness :
    encontrar_motor_final 47 = some 50 ∧ (50 : ℚ) ∈ MOTORES_PADRAO ∧
      (47 : ℚ) ≤ 50 ∧ ∀ y ∈ MOTORES_PADRAO, (47 : ℚ) ≤ y → (50 : ℚ) ≤ y := by
  have h47 : encontrar_motor_final 47 = some 50 :=
    of_decide_eq_true (by with_unfolding_all rfl)
  have h := (C6_standard_motor_ladder 47).2 50 h47
  exact ⟨h47, h⟩

/-- C4: every record in any filter output (in both versions, and at every
stage of the selection strategy: the target flow, the halved flow of the
parallel stage, the unchanged flow of the series stage) has flow exactly
equal to the flow targeted at that stage — flow matching is exact
equality, never tolerance-banded. -/
theorem C4_exact_flow (df : List App2.ERec) (df2 : List AppLL.ERec)
    (v p : ℚ) (n : ℕ) (fator limite : ℚ) :
    (App2.filtrar_e_classificar df v p n fator limite).Forall (fun r => r.vazao = v) ∧
    (AppLL.filtrar_e_classificar df2 v p n).Forall (fun r => r.vazao = v) ∧
    (App2.selecionar_bombas df v p n).1.Forall
      (fun r => r.vazao =
        (if (App2.selecionar_bombas df v p n).2 = "paralelo" then v / 2 else v)) ∧
    (AppLL.selecionar_bombas df2 v p n).1.Forall
      (fun r => r.vazao =
        (if (AppLL.selecionar_bombas df2 v p n).2 = "paralelo" then v / 2 else v)) := by
  have hA : ∀ (d : List App2.ERec) (v' p' : ℚ) (n' : ℕ) (f l : ℚ),
      (App2.filtrar_e_classificar d v' p' n' f l).Forall (fun r => r.vazao = v') := by
    intro d v' p' n' f l
    rw [List.forall_iff_forall_mem]
    intro r hr
    rcases App2.mem_filtrar hr with ⟨rr, hrr, hpr⟩
    rcases App2.mem_rankAllFull hrr with ⟨hce, _, _⟩
    rcases App2.mem_candidatos hce with ⟨_, hadm, _⟩
    rw [hpr]
    exact App2.admissivel_vazao hadm
  have hL : ∀ (d : List AppLL.ERec) (v' p' : ℚ) (n' : ℕ),
      (AppLL.filtrar_e_classificar d v' p' n').Forall (fun r => r.vazao = v') := by
    intro d v' p' n'
    rw [List.forall_iff_forall_mem]
    intro r hr
    rcases AppLL.mem_filtrarL hr with ⟨rr, hrr, hpr⟩
    rcases AppLL.mem_rankAllFullL hrr with ⟨hce, _⟩
    rcases AppLL.mem_candidatosL hce with ⟨_, hadm⟩
    rw [hpr]
    exact AppLL.admissivel_vazaoL hadm
  refine ⟨hA df v p n fator limite, hL df2 v p n, ?_, ?_⟩
  · rcases App2.selecionar_cases df v p n with h | h | h | h <;> rw [h]
    · simp only [if_neg (show ¬("unica" : String) = "paralelo" by decide)]
      exact hA df v p n (1 / 40) 3
    · simp only [if_pos (show ("paralelo" : String) = "paralelo" by rfl)]
      exact hA df (v / 2) p n (1 / 40) 3
    · simp only [if_neg (show ¬("serie" : String) = "paralelo" by decide)]
      exact hA df v (p / 2) n (1 / 40) 3
    · exact trivial
  · rcases AppLL.selecionar_casesL df2 v p n with h | h | h | h <;> rw [h]
    · simp only [if_neg (show ¬("unica" : String) = "paralelo" by decide)]
      exact hL df2 v p n
    · simp only [if_pos (show ("paralelo" : String) = "paralelo" by rfl)]
      exact hL df2 (v / 2) p n
    · simp only [if_neg (show ¬("serie" : String) = "paralelo" by decide)]
      exact hL df2 v (p / 2) n
    · exact trivial

/-- C5: the ranked output always has length `min top_n (candidate
count)` — so at most `top_n`, and exactly the candidate count when the
latter is smaller — and it is the `top_n`-prefix of the fully ordered
candidate list: truncation happens only after the complete ordering. -/
theorem C5_truncation (df : List App2.ERec) (df2 : List AppLL.ERec)
    (v p : ℚ) (n : ℕ) (fator limite : ℚ) :
    (App2.filtrar_e_classificar df v p n fator limite).length
        = min n ((App2.candidatos df v p).length) ∧
    App2.filtrar_e_classificar df v p n fator limite
        = (App2.rankAll df v p fator limite).take n ∧
    (AppLL.filtrar_e_classificar df2 v p n).length
        = min n ((AppLL.candidatos df2 v p).length) ∧
    AppLL.filtrar_e_classificar df2 v p n = (AppLL.rankAll df2 v p).take n :=
  ⟨App2.length_filtrar df v p n fator limite, rfl,
   AppLL.length_filtrarL df2 v p n, rfl⟩

/-- C8 as stated is false on `appll.py`: at the concrete catalog `catB`
and target (100, 100) the admitted row has catalog pressure 98, so the
signed difference is −2, but the reported `erro_pressao` is its absolute
value 2 (`appll.py` line 72 applies `abs`). -/
theorem C8_counterexample :
    (AppLL.filtrar_e_classificar catBdf 100 100 5).map (fun r => r.erroPressao) = [2] ∧
    (AppLL.filtrar_e_classificar catBdf 100 100 5).map (fun r => r.pressao - 100) = [-2] ∧
    (2 : ℚ) ≠ -2 :=
  ⟨of_decide_eq_true (by with_unfolding_all rfl),
   of_decide_eq_true (by with_unfolding_all rfl),
   by norm_num⟩

/-- Clipping bound: `|np.clip(B, -L, L)| ≤ L` when `0 ≤ L`, phrased for the corrected
power: subtracting the clipped adjustment moves the power by at most `L`. -/
theorem abs_clip_le {L B x : ℚ} (hL : 0 ≤ L) :
    |x - min L (max (-L) B) - x| ≤ L := by
  have h1 : min L (max (-L) B) ≤ L := min_le_left _ _
  have h2 : -L ≤ min L (max (-L) B) := le_min (neg_le_self hL) (le_max_left _ _)
  have hx : x - min L (max (-L) B) - x = -(min L (max (-L) B)) := by ring
  rw [hx, abs_neg]
  exact abs_le.mpr ⟨h2, h1⟩

/-- The four exit states of the three-stage fallback, characterised by
their guards.  The tags make the four results pairwise distinct. -/
theorem fallback_spec {α : Type} [DecidableEq α] (ru rp rs : List α) (Q : Prop) [Decidable Q]
    (sel : List α × String)
    (hsel : sel = if Q then (ru, "unica")
        else if rp ≠ [] then (rp, "paralelo")
        else if rs ≠ [] then (rs, "serie") else ([], "nenhuma")) :
    (sel = (ru, "unica") ↔ Q) ∧
    (sel = (rp, "paralelo") ↔ ¬Q ∧ rp ≠ []) ∧
    (sel = (rs, "serie") ↔ ¬Q ∧ rp = [] ∧ rs ≠ []) ∧
    (sel = ([], "nenhuma") ↔ ¬Q ∧ rp = [] ∧ rs = []) := by
  by_cases hQ : Q
  · rw [if_pos hQ] at hsel
    subst hsel
    refine ⟨⟨fun _ => hQ, fun _ => rfl⟩, ?_, ?_, ?_⟩
    · exact ⟨fun h => absurd (congrArg Prod.snd h) (by simp),
        fun h => absurd hQ h.1⟩
    · exact ⟨fun h => absurd (congrArg Prod.snd h) (by simp),
        fun h => absurd hQ h.1⟩
    · exact ⟨fun h => absurd (congrArg Prod.snd h) (by simp),
        fun h => absurd hQ h.1⟩
  · rw [if_neg hQ] at hsel
    by_cases hrp : rp ≠ []
    · rw [if_pos hrp] at hsel
      subst hsel
      refine ⟨?_, ⟨fun _ => ⟨hQ, hrp⟩, fun _ => rfl⟩, ?_, ?_⟩
      · exact ⟨fun h => absurd (congrArg Prod.snd h) (by simp),
          fun h => absurd h hQ⟩
      · exact ⟨fun h => absurd (congrArg Prod.snd h) (by simp),
          fun h => absurd h.2.1 hrp⟩
      · exact ⟨fun h => absurd (congrArg Prod.snd h) (by simp),
          fun h => absurd h.2.1 hrp⟩
    · rw [if_neg hrp] at hsel
      have hrpEq : rp = [] := not_not.mp hrp
      by_cases hrs : rs ≠ []
      · rw [if_pos hrs] at hsel
        subst hsel
        refine ⟨?_, ?_, ⟨fun _ => ⟨hQ, hrpEq, hrs⟩, fun _ => rfl⟩, ?_⟩
        · exact ⟨fun h => absurd (congrArg Prod.snd h) (by simp),
            fun h => absurd h hQ⟩
        · exact ⟨fun h => absurd (congrArg Prod.snd h) (by simp),
            fun h => absurd hrpEq h.2⟩
        · exact ⟨fun h => absurd (congrArg Prod.snd h) (by simp),
            fun h => absurd h.2.2 hrs⟩
      · rw [if_neg hrs] at hsel
        have hrsEq : rs = [] := not_not.mp hrs
        subst hsel
        refine ⟨?_, ?_, ?_, ⟨fun _ => ⟨hQ, hrpEq, hrsEq⟩, fun _ => rfl⟩⟩
        · exact ⟨fun h => absurd (congrArg Prod.snd h) (by simp),
            fun h => absurd h hQ⟩
        · exact ⟨fun h => absurd (congrArg Prod.snd h) (by simp),
            fun h => absurd hrpEq h.2⟩
        · exact ⟨fun h => absurd (congrArg Prod.snd h) (by simp),
            fun h => absurd hrsEq h.2.2⟩

set_option maxRecDepth 16000 in
/-- C3 as stated is false: at catalog `cat6` and target (100, 100) the
two admitted rows share the motor group (motor 50).  Under the spec's
refined policy the nearest efficiency gap is 4 for both rows, 4 ≤ 5, so
the keys are the relative-flow-error magnitudes (0 for the 76%-row,
1/2 for the 80%-row) and the 76%-row must come first.  The code instead
compares the consecutive gap 4 against its default threshold 3 (and has
no gap at all for the group-last row), sets both tie-break keys to +inf,
and orders by efficiency descending: the 80%-row comes first. -/
theorem C3_counterexample :
    (App2.filtrar_e_classificar cat6df 100 100 5 (1 / 40) 3).map
        (fun r => r.rendimento) = [80, 76] ∧
    (Spec.refinedRank (App2.candidatos cat6df 100 100) 100).map
        (fun e => e.rendimento) = [76, 80] :=
  ⟨of_decide_eq_true (by with_unfolding_all rfl),
   of_decide_eq_true (by with_unfolding_all rfl)⟩

/-- C3 amended: in `app2.py`, each ranked row's gap (`DIFF_CONSECUTIVO`)
is the efficiency difference to the NEXT row of the same (corrected)
motor group in efficiency-descending order — missing (treated as +inf)
for the last row of each group, singletons included.  The tie-break key
is the |relative flow error| when that gap is ≤ the configured threshold
(default 3, not 5), +inf otherwise, with an undefined relative flow error
giving a `NaN` key.  The output is ordered by (motor final ascending with
`NaN` last, tie-break key ascending with `NaN` last, efficiency
DESCENDING, corrected power ascending) — not by absolute pressure
error. -/
theorem C3_tiebreak_amended (df : List App2.ERec) (v p : ℚ) (n : ℕ)
    (fator limite : ℚ) :
    (App2.filtrarFull df v p n fator limite).Pairwise
      (fun a b => App2.K2 a ≤ App2.K2 b) ∧
    (App2.filtrarFull df v p n fator limite).Forall
      (fun r => r.chave = App2.chaveOf limite r.diffConsecutivo r.c.e.absErroRelativo) := by
  refine ⟨App2.filtrarFull_pairwise df v p n fator limite, ?_⟩
  rw [List.forall_iff_forall_mem]
  intro r hr
  exact (App2.mem_rankAllFull (List.mem_of_mem_take hr)).2.2

/-- C7: the enrichers of both versions leave the relative flow error
undefined (`none`, never 0) exactly on zero-width flow bands, and both
rankings treat the undefined value as worst-case: in an output of
`app2.py`, a row whose tie-break key is the `NaN` sentinel never precedes
a same-motor row whose key is a number; in an output of `appll.py`, a row
with undefined `erro_relativo` never precedes a row with the same motor
and efficiency whose `erro_relativo` is defined. -/
theorem C7_zero_width_band (rows rows2 : List Record) (df : List App2.ERec)
    (df2 : List AppLL.ERec) (v p : ℚ) (n : ℕ) (fator limite : ℚ) :
    (App2.enrich rows).Forall
      (fun e => (e.flowMax = e.flowMin ↔ e.erroRelativo = none)) ∧
    (AppLL.enrich rows2).Forall
      (fun e => (e.flowMax = e.flowMin ↔ e.erroRelativo = none)) ∧
    (App2.filtrarFull df v p n fator limite).Pairwise
      (fun a b => ¬(a.c.motorFinal = b.c.motorFinal ∧ a.chave = evNan ∧
        ∃ q, b.chave = evNum q)) ∧
    (AppLL.filtrarFull df2 v p n).Pairwise
      (fun a b => ¬(a.e.motor = b.e.motor ∧ a.e.rendimento = b.e.rendimento ∧
        a.e.erroRelativo = none ∧ ∃ q, b.e.erroRelativo = some q)) := by
  refine ⟨?_, ?_, ?_, ?_⟩
  · rw [List.forall_iff_forall_mem]
    intro e he
    rcases App2.mem_enrich he with ⟨r, _, rfl⟩
    unfold App2.enrichRow
    dsimp only
    split_ifs with h <;> simp [h]
  · rw [List.forall_iff_forall_mem]
    intro e he
    rcases AppLL.mem_enrichL he with ⟨r, _, rfl⟩
    unfold AppLL.enrichRow
    dsimp only
    split_ifs with h <;> simp [h]
  · refine (App2.filtrarFull_pairwise df v p n fator limite).imp ?_
    intro a b hab hbad
    rcases hbad with ⟨hM, ha, q, hb⟩
    exact App2.K2_le_nan_num hab hM ha q hb
  · refine (AppLL.filtrarFull_pairwiseL df2 v p n).imp ?_
    intro a b hab hbad
    rcases hbad with ⟨hM, hR, ha, q, hb⟩
    exact AppLL.KL_le_nan_num hab hM hR ha q hb

/-- C2 as stated is false: running one filter query on a shared catalog
that does not yet carry the margin columns changes the catalog — the
query writes the `margem_cima`/`margem_baixo` columns into the shared
frame (`app2.py` lines 62-63), so the catalog observed afterwards differs
from the one before. -/
theorem C2_counterexample :
    (App2.filtrarState ⟨cat6df, none⟩ 100 100 5 (1 / 40) 3).2
      ≠ (⟨cat6df, none⟩ : App2.Catalog2) := by
  intro h
  exact Option.noConfusion (congrArg App2.Catalog2.margemCols h)

/-- C2 amended: a filter query mutates the shared catalog, but only by
(re)writing the two margin columns: the rows and all other columns are
unchanged, the written values depend only on the rows (never on the
query's flow/pressure), the returned rows do not depend on margin columns
left by earlier queries, and the post-query state is a fixed point — any
later query leaves the catalog exactly as the first query left it. -/
theorem C2_margin_mutation_only (c : App2.Catalog2) (rows : List App2.ERec)
    (mc mc' : Option (List (ℚ × ℚ))) (v p v' p' : ℚ) (n n' : ℕ)
    (fator limite fator' limite' : ℚ) :
    (App2.filtrarState c v p n fator limite).2.rows = c.rows ∧
    (App2.filtrarState c v p n fator limite).2.margemCols
        = some (App2.margensOf c.rows) ∧
    (App2.filtrarState ((App2.filtrarState c v p n fator limite).2)
        v' p' n' fator' limite').2
      = (App2.filtrarState c v p n fator limite).2 ∧
    (App2.filtrarState ⟨rows, mc⟩ v p n fator limite).1
      = (App2.filtrarState ⟨rows, mc'⟩ v p n fator limite).1 :=
  ⟨rfl, rfl, rfl, rfl⟩

/-- C9: in `app2.py`, for every admitted candidate (over an enriched
catalog of nonnegative nameplate powers) with target pressure > 0 and
nonnegative `fator_limitador`, the corrected power differs from the
nameplate power by at most `fator_limitador` times the family's maximum
nameplate power, because the adjustment is clipped to that band. -/
theorem C9_power_clip (rows : List Record) (v p : ℚ) (n : ℕ)
    (fator limite : ℚ) (hp : 0 < p) (hf : 0 ≤ fator)
    (hpow : ∀ s ∈ rows, 0 ≤ s.potencia) :
    (App2.filtrarFull (App2.enrich rows) v p n fator limite).Forall
      (fun r => |r.c.potenciaCorrigida - r.c.e.potencia|
        ≤ fator * r.c.e.potenciaMaxFamilia) := by
  rw [List.forall_iff_forall_mem]
  intro r hr
  rcases App2.mem_rankAllFull (List.mem_of_mem_take hr) with ⟨hce, hc, _⟩
  rcases App2.mem_candidatos hce with ⟨hdf, _, _⟩
  rcases App2.mem_enrich hdf with ⟨s, hs, hse⟩
  have hs0 : 0 ≤ s.potencia := hpow s hs
  have hpmf : 0 ≤ r.c.e.potenciaMaxFamilia := by
    rw [hse]
    exact le_trans hs0 (init_le_foldl_max _ _)
  have hL0 : 0 ≤ r.c.e.potenciaMaxFamilia * fator := mul_nonneg hpmf hf
  rw [hc]
  dsimp only [App2.mkCand]
  exact (abs_clip_le hL0).trans_eq (mul_comm _ _)

set_option maxRecDepth 16000 in
/-- Witness for C9 at catalog `cat6` and target (100, 99), where both
admitted rows get a nonzero clipped power adjustment. -/
theorem C9_witness :
    (App2.filtrarFull (App2.enrich cat6) 100 99 5 (1 / 40) 3).Forall
      (fun r => |r.c.potenciaCorrigida - r.c.e.potencia|
        ≤ (1 / 40) * r.c.e.potenciaMaxFamilia) :=
  C9_power_clip cat6 100 99 5 (1 / 40) 3 (by norm_num) (by norm_num)
    (of_decide_eq_true (by with_unfolding_all rfl))

/-- C1: the selection strategy follows the strict fallback order, in both
versions: the single-pump result with tag "unica" is returned iff that
result is non-empty and its first record's efficiency exceeds the
configured quality threshold (50 in `app2.py`, 60 in `appll.py`);
otherwise the half-flow result with tag "paralelo" iff it is non-empty
(no efficiency gate); otherwise the half-pressure result with tag "serie"
iff it is non-empty; otherwise the empty result with tag "nenhuma". -/
theorem C1_selection_fallback (df : List App2.ERec) (df2 : List AppLL.ERec)
    (v p : ℚ) (n : ℕ) (hv : 0 < v) (hp : 0 < p) :
    ((App2.selecionar_bombas df v p n
        = (App2.filtrar_e_classificar df v p n (1 / 40) 3, "unica")
      ↔ App2.filtrar_e_classificar df v p n (1 / 40) 3 ≠ [] ∧
          50 < App2.bestRend (App2.filtrar_e_classificar df v p n (1 / 40) 3)) ∧
     (App2.selecionar_bombas df v p n
        = (App2.filtrar_e_classificar df (v / 2) p n (1 / 40) 3, "paralelo")
      ↔ ¬(App2.filtrar_e_classificar df v p n (1 / 40) 3 ≠ [] ∧
          50 < App2.bestRend (App2.filtrar_e_classificar df v p n (1 / 40) 3)) ∧
          App2.filtrar_e_classificar df (v / 2) p n (1 / 40) 3 ≠ []) ∧
     (App2.selecionar_bombas df v p n
        = (App2.filtrar_e_classificar df v (p / 2) n (1 / 40) 3, "serie")
      ↔ ¬(App2.filtrar_e_classificar df v p n (1 / 40) 3 ≠ [] ∧
          50 < App2.bestRend (App2.filtrar_e_classificar df v p n (1 / 40) 3)) ∧
          App2.filtrar_e_classificar df (v / 2) p n (1 / 40) 3 = [] ∧
          App2.filtrar_e_classificar df v (p / 2) n (1 / 40) 3 ≠ []) ∧
     (App2.selecionar_bombas df v p n = ([], "nenhuma")
      ↔ ¬(App2.filtrar_e_classificar df v p n (1 / 40) 3 ≠ [] ∧
          50 < App2.bestRend (App2.filtrar_e_classificar df v p n (1 / 40) 3)) ∧
          App2.filtrar_e_classificar df (v / 2) p n (1 / 40) 3 = [] ∧
          App2.filtrar_e_classificar df v (p / 2) n (1 / 40) 3 = [])) ∧
    ((AppLL.selecionar_bombas df2 v p n
        = (AppLL.filtrar_e_classificar df2 v p n, "unica")
      ↔ AppLL.filtrar_e_classificar df2 v p n ≠ [] ∧
          60 < AppLL.bestRend (AppLL.filtrar_e_classificar df2 v p n)) ∧
     (AppLL.selecionar_bombas df2 v p n
        = (AppLL.filtrar_e_classificar df2 (v / 2) p n, "paralelo")
      ↔ ¬(AppLL.filtrar_e_classificar df2 v p n ≠ [] ∧
          60 < AppLL.bestRend (AppLL.filtrar_e_classificar df2 v p n)) ∧
          AppLL.filtrar_e_classificar df2 (v / 2) p n ≠ []) ∧
     (AppLL.selecionar_bombas df2 v p n
        = (AppLL.filtrar_e_classificar df2 v (p / 2) n, "serie")
      ↔ ¬(AppLL.filtrar_e_classificar df2 v p n ≠ [] ∧
          60 < AppLL.bestRend (AppLL.filtrar_e_classificar df2 v p n)) ∧
          AppLL.filtrar_e_classificar df2 (v / 2) p n = [] ∧
          AppLL.filtrar_e_classificar df2 v (p / 2) n ≠ []) ∧
     (AppLL.selecionar_bombas df2 v p n = ([], "nenhuma")
      ↔ ¬(AppLL.filtrar_e_classificar df2 v p n ≠ [] ∧
          60 < AppLL.bestRend (AppLL.filtrar_e_classificar df2 v p n)) ∧
          AppLL.filtrar_e_classificar df2 (v / 2) p n = [] ∧
          AppLL.filtrar_e_classificar df2 v (p / 2) n = [])) :=
  ⟨fallback_spec _ _ _ _ _ rfl, fallback_spec _ _ _ _ _ rfl⟩

set_option maxRecDepth 16000 in
/-- Witness for C1 at `cat6` / `catB` and target (100, 100): both
versions qualify in single-pump mode (best efficiencies 80 > 50 and
70 > 60). -/
theorem C1_witness :
    App2.selecionar_bombas cat6df 100 100 5
      = (App2.filtrar_e_classificar cat6df 100 100 5 (1 / 40) 3, "unica") ∧
    AppLL.selecionar_bombas catBdf 100 100 5
      = (AppLL.filtrar_e_classificar catBdf 100 100 5, "unica") := by
  have h := C1_selection_fallback cat6df catBdf 100 100 5 (by norm_num) (by norm_num)
  exact ⟨h.1.1.mpr (of_decide_eq_true (by with_unfolding_all rfl)),
         h.2.1.mpr (of_decide_eq_true (by with_unfolding_all rfl))⟩

/-- C10: for positive targets, the strategy's returned tag is always one
of "unica", "paralelo", "serie", "nenhuma", and the returned row set is
empty if and only if the tag is the no-match tag "nenhuma" — in both
versions. -/
theorem C10_mode_tags (df : List App2.ERec) (df2 : List AppLL.ERec)
    (v p : ℚ) (n : ℕ) (hv : 0 < v) (hp : 0 < p) :
    (((App2.selecionar_bombas df v p n).2 = "unica" ∨
      (App2.selecionar_bombas df v p n).2 = "paralelo" ∨
      (App2.selecionar_bombas df v p n).2 = "serie" ∨
      (App2.selecionar_bombas df v p n).2 = "nenhuma") ∧
     ((App2.selecionar_bombas df v p n).1 = []
        ↔ (App2.selecionar_bombas df v p n).2 = "nenhuma")) ∧
    (((AppLL.selecionar_bombas df2 v p n).2 = "unica" ∨
      (AppLL.selecionar_bombas df2 v p n).2 = "paralelo" ∨
      (AppLL.selecionar_bombas df2 v p n).2 = "serie" ∨
      (AppLL.selecionar_bombas df2 v p n).2 = "nenhuma") ∧
     ((AppLL.selecionar_bombas df2 v p n).1 = []
        ↔ (AppLL.selecionar_bombas df2 v p n).2 = "nenhuma")) := by
  refine ⟨?_, ?_⟩
  · unfold App2.selecionar_bombas
    dsimp only
    split_ifs with h1 h2 h3
    · exact ⟨Or.inl rfl, ⟨fun h => absurd h h1.1, fun h => absurd h (by simp)⟩⟩
    · exact ⟨Or.inr (Or.inl rfl), ⟨fun h => absurd h h2, fun h => absurd h (by simp)⟩⟩
    · exact ⟨Or.inr (Or.inr (Or.inl rfl)),
        ⟨fun h => absurd h h3, fun h => absurd h (by simp)⟩⟩
    · exact ⟨Or.inr (Or.inr (Or.inr rfl)), ⟨fun _ => rfl, fun _ => rfl⟩⟩
  · unfold AppLL.selecionar_bombas
    dsimp only
    split_ifs with h1 h2 h3
    · exact ⟨Or.inl rfl, ⟨fun h => absurd h h1.1, fun h => absurd h (by simp)⟩⟩
    · exact ⟨Or.inr (Or.inl rfl), ⟨fun h => absurd h h2, fun h => absurd h (by simp)⟩⟩
    · exact ⟨Or.inr (Or.inr (Or.inl rfl)),
        ⟨fun h => absurd h h3, fun h => absurd h (by simp)⟩⟩
    · exact ⟨Or.inr (Or.inr (Or.inr rfl)), ⟨fun _ => rfl, fun _ => rfl⟩⟩

/-- Witness for C10 at `cat6` / `catB` and target (100, 100). -/
theorem C10_witness :
    ((App2.selecionar_bombas cat6df 100 100 5).1 = []
      ↔ (App2.selecionar_bombas cat6df 100 100 5).2 = "nenhuma") ∧
    ((AppLL.selecionar_bombas catBdf 100 100 5).1 = []
      ↔ (AppLL.selecionar_bombas catBdf 100 100 5).2 = "nenhuma") := by
  have h := C10_mode_tags cat6df catBdf 100 100 5 (by norm_num) (by norm_num)
  exact ⟨h.1.2, h.2.2⟩

/-- C8 amended: in `app2.py` the reported `ERRO_PRESSAO` is indeed the
signed difference (record pressure − target pressure); in `appll.py` the
reported `erro_pressao` is the ABSOLUTE difference, not the signed one. -/
theorem C8_pressure_error_fields (df : List App2.ERec) (df2 : List AppLL.ERec)
    (v p : ℚ) (n : ℕ) (fator limite : ℚ) :
    (App2.filtrar_e_classificar df v p n fator limite).Forall
      (fun r => r.erroPressao = r.pressao - p) ∧
    (AppLL.filtrar_e_classificar df2 v p n).Forall
      (fun r => r.erroPressao = |r.pressao - p|) := by
  constructor
  · rw [List.forall_iff_forall_mem]
    intro r hr
    rcases App2.mem_filtrar hr with ⟨rr, hrr, hpr⟩
    rcases App2.mem_rankAllFull hrr with ⟨_, hc, _⟩
    rw [hpr]
    show rr.c.erroPressao = rr.c.e.pressao - p
    rw [hc]
    rfl
  · rw [List.forall_iff_forall_mem]
    intro r hr
    rcases AppLL.mem_filtrarL hr with ⟨rr, hrr, hpr⟩
    rcases AppLL.mem_rankAllFullL hrr with ⟨_, hc⟩
    rw [hpr]
    show rr.erroPressao = |rr.e.pressao - p|
    rw [hc]
    rfl

end SeletorBombas
